import Mathlib

/-!
Shallow embedding of the libersuite-panel runtime gateway: account model,
SSH and SOCKS5 authentication, the per-session quota meter, usage flushing,
the DNS zone dispatcher, and the first-byte protocol multiplexer.
Each definition is translated from the corresponding Go function of the
repository; theorems check the specification claims against them.
-/

namespace Libersuite

/-- Account record, translated from `models.Client` (database/models).
Go `time.Time` instants are modelled as `Nat`; the zero value of
`ExpiresAt` (meaning never expires) is modelled as `none`. -/
structure Client where
  username : String
  password : String
  trafficLimit : Int
  trafficUsed : Int
  expiresAt : Option Nat
  enabled : Bool
  lastConnection : Nat
deriving DecidableEq, Repr

/-- From `Client.IsExpired`: zero `ExpiresAt` is never expired, otherwise
expired iff `time.Now().After(ExpiresAt)`, i.e. the deadline is strictly
before now. -/
def Client.IsExpired (c : Client) (now : Nat) : Bool :=
  match c.expiresAt with
  | none => false
  | some t => decide (t < now)

/-- From `Client.HasTrafficRemaining`: limit `0` means unlimited, otherwise
requires `TrafficUsed < TrafficLimit`. -/
def Client.HasTrafficRemaining (c : Client) : Bool :=
  if c.trafficLimit = 0 then true else decide (c.trafficUsed < c.trafficLimit)

/-- From `Client.IsActive`: `Enabled && !IsExpired() && HasTrafficRemaining()`. -/
def Client.IsActive (c : Client) (now : Nat) : Bool :=
  c.enabled && !(c.IsExpired now) && c.HasTrafficRemaining

/-- Account-store lookup, modelling `database.DB.Where("username = ?", u).First`:
the first record whose username matches, if any. -/
def findByUsername (store : List Client) (u : String) : Option Client :=
  store.find? (fun c => c.username = u)

/-- SSH password authentication, translated from `sshserver.Server.passwordHandler`:
look the user up, compare the password byte-exact, require `IsActive`; on
success set `LastConnection` to now and save the record (returned here), which
is also attached to the connection context. `none` models returning `false`. -/
def passwordHandler (store : List Client) (username password : String) (now : Nat) :
    Option Client :=
  match findByUsername store username with
  | none => none
  | some c =>
    if c.password ≠ password then none
    else if ¬ (c.IsActive now = true) then none
    else some { c with lastConnection := now }

/-- SOCKS5 username/password subnegotiation, translated from
`socksserver.authenticate` (the part after the method greeting): the wire
fields `[ver][ulen][user][plen][pass]` arrive parsed as the version byte and
the two byte strings (`ulen = 0` iff `username = ""`, and `plen = 0` parses to
the empty password). Returns the reply bytes written to the client together
with the authenticated record (`LastConnection` updated and saved) on success. -/
def subnegotiate (store : List Client) (ver : Nat) (username password : String)
    (now : Nat) : List Nat × Option Client :=
  if ver ≠ 1 then ([1, 1], none)
  else if username = "" then ([1, 1], none)
  else
    match findByUsername store username with
    | none => ([1, 1], none)
    | some c =>
      if c.password ≠ password ∨ ¬ (c.IsActive now = true) then ([1, 1], none)
      else ([1, 0], some { c with lastConnection := now })

/-- Per-session quota meter state of the SOCKS5 gateway, from
`socksserver.quotaWriter`: the shared atomic session counter (`used`), the
account value of `TrafficUsed` at session start (`baseUsed`) and the account
`TrafficLimit` (`limit`). Both copy directions wrap the same counter. -/
structure QuotaWriter where
  used : Int
  baseUsed : Int
  limit : Int
deriving DecidableEq, Repr

/-- One call of `quotaWriter.Write` on a chunk of `n` bytes whose underlying
write succeeds in full: returns the reported byte count, whether the terminal
`io.ErrShortWrite` signal is returned, and the updated meter. When `n > 0` the
counter is atomically increased by `n` and the signal fires iff
`limit > 0 && used + n + baseUsed >= limit`; the chunk is reported written
either way. -/
def QuotaWriter.write (q : QuotaWriter) (n : Nat) : Nat × Bool × QuotaWriter :=
  if 0 < n then
    let newUsed := q.used + (n : Int)
    let terminal := decide (0 < q.limit) && decide (q.limit ≤ newUsed + q.baseUsed)
    (n, terminal, { q with used := newUsed })
  else (n, false, q)

/-- Copy-pump run over the shared meter: the interleaving of the chunks the
two `io.Copy` pumps write, in the order the atomic add+check events occur,
stopping at the first terminal signal (the chunk that triggers it is still
delivered and counted, as `io.Copy` stops only after the failing write). -/
def pumpRun (q : QuotaWriter) : List Nat → QuotaWriter
  | [] => q
  | n :: rest =>
    let r := q.write n
    if r.2.1 then r.2.2 else pumpRun r.2.2 rest

/-- Per-session counters of the SSH gateway, from `sshserver.sessionTracker`:
two atomic counters shared by all channels of the session. -/
structure SessionCounters where
  bytesRead : Int
  bytesWritten : Int
deriving DecidableEq, Repr

/-- One call of `trafficReader.Read` delivering `n` bytes from the underlying
reader: adds `n` to `bytesRead` and returns the terminal `io.EOF` signal iff
`TrafficLimit > 0 && TrafficUsed + bytesRead + bytesWritten >= TrafficLimit`;
the `n` bytes are reported read either way. -/
def trafficReaderRead (limit base : Int) (s : SessionCounters) (n : Nat) :
    Nat × Bool × SessionCounters :=
  if 0 < n then
    let s' : SessionCounters := { s with bytesRead := s.bytesRead + (n : Int) }
    let terminal := decide (0 < limit) &&
      decide (limit ≤ base + s'.bytesRead + s'.bytesWritten)
    (n, terminal, s')
  else (n, false, s)

/-- One call of `trafficWriter.Write` whose underlying write accepts all `n`
bytes: adds `n` to `bytesWritten` and returns the terminal `io.ErrShortWrite`
signal under the same limit condition; the `n` bytes are reported either way. -/
def trafficWriterWrite (limit base : Int) (s : SessionCounters) (n : Nat) :
    Nat × Bool × SessionCounters :=
  if 0 < n then
    let s' : SessionCounters := { s with bytesWritten := s.bytesWritten + (n : Int) }
    let terminal := decide (0 < limit) &&
      decide (limit ≤ base + s'.bytesRead + s'.bytesWritten)
    (n, terminal, s')
  else (n, false, s)

/-- Copy-pump run over the SSH session counters: an interleaving of read-side
(`true`) and write-side (`false`) chunks against the shared counters, stopping
at the first terminal signal. -/
def sshPumpRun (limit base : Int) (s : SessionCounters) :
    List (Bool × Nat) → SessionCounters
  | [] => s
  | (dir, n) :: rest =>
    let r := if dir then trafficReaderRead limit base s n
             else trafficWriterWrite limit base s n
    if r.2.1 then r.2.2 else sshPumpRun limit base r.2.2 rest

/-- End-of-session usage write of the SOCKS5 gateway, from the tail of
`socksserver.Server.handleConnectRequest`: when the session counter is
positive, the store column is updated through the additive expression
`traffic_used = traffic_used + used` (`gorm.Expr`), evaluated on the current
store value. Returns the new store value of `traffic_used`. -/
def socksFlushUsage (storeUsed sessionUsed : Int) : Int :=
  if 0 < sessionUsed then storeUsed + sessionUsed else storeUsed

/-- SSH session tracker as far as flushing is concerned: the in-memory copy
of the account's `TrafficUsed` held in `tracker.client`, plus the two
session counters. -/
structure SessionTracker where
  clientUsed : Int
  bytesRead : Int
  bytesWritten : Int
deriving DecidableEq, Repr

/-- From `sshserver.Server.flushOne`: atomically swap both counters to zero,
and if their sum is nonzero add it to the in-memory `client.TrafficUsed` and
`database.DB.Save(t.client)` — which writes that in-memory value over the
store row. Returns the updated tracker and the store value of `traffic_used`
after the flush, given its value `storeUsed` just before. -/
def flushOne (t : SessionTracker) (storeUsed : Int) : SessionTracker × Int :=
  let used := t.bytesRead + t.bytesWritten
  if used = 0 then ({ t with bytesRead := 0, bytesWritten := 0 }, storeUsed)
  else
    ({ clientUsed := t.clientUsed + used, bytesRead := 0, bytesWritten := 0 },
     t.clientUsed + used)

/-- Domain names and backend address strings, as byte strings (one `Char`
per Go byte). -/
abbrev DName := List Char

/-- Go `strings.ToLower`, on the ASCII range that domain names use. -/
def toLowerD (s : DName) : DName := s.map Char.toLower

/-- Go `strings.TrimSpace`: drop whitespace from both ends. -/
def trimSpace (s : DName) : DName :=
  ((s.dropWhile Char.isWhitespace).reverse.dropWhile Char.isWhitespace).reverse

/-- Resolved UDP backend address, from `net.UDPAddr`. -/
structure UDPAddr where
  host : DName
  port : Nat
deriving DecidableEq, Repr

/-- Zone route, from `dnsdispatcher.domainRoute`. -/
structure DomainRoute where
  domain : DName
  dnsttUDP : UDPAddr
deriving DecidableEq, Repr

/-- From `DnsDispatcher.matchTarget`: linear scan of the route table, first
route whose domain is a byte-suffix (`strings.HasSuffix`) of the query name. -/
def matchTarget (routes : List DomainRoute) (qName : DName) : Option UDPAddr :=
  match routes with
  | [] => none
  | r :: rest => if r.domain.isSuffixOf qName then some r.dnsttUDP else matchTarget rest qName

/-- The dispatcher handler body from `DnsDispatcher.Start`: an empty question
section returns without forwarding; otherwise the first question name is
lowercased and matched; `some a` means the message is forwarded to backend
`a`, `none` means nothing is forwarded and no reply of any kind is sent. -/
def handleDnsQuery (routes : List DomainRoute) (questions : List DName) : Option UDPAddr :=
  match questions with
  | [] => none
  | q :: _ => matchTarget routes (toLowerD q)

/-- Domain normalization loop of `NewDnsDispatcher`: lowercase, trim, drop
empties, append a trailing dot when missing. -/
def normalizeDomains : List DName → List DName
  | [] => []
  | d :: rest =>
    let d' := trimSpace (toLowerD d)
    if d' = [] then normalizeDomains rest
    else (if ['.'].isSuffixOf d' then d' else d' ++ ['.']) :: normalizeDomains rest

/-- Backend address normalization loop of `NewDnsDispatcher`: trim, drop
empties. -/
def normalizeAddrs : List DName → List DName
  | [] => []
  | a :: rest =>
    let a' := trimSpace a
    if a' = [] then normalizeAddrs rest else a' :: normalizeAddrs rest

/-- The address each zone is paired with in the route-building loop of
`NewDnsDispatcher`: `normalizedAddrs[i]` when the counts are equal, else
`normalizedAddrs[0]` broadcast to every zone. -/
def pairAddrs (nd na : List DName) : List (DName × DName) :=
  nd.zip (if na.length = nd.length then na else List.replicate nd.length (na.headD []))

/-- Route-building loop of `NewDnsDispatcher`: resolve each paired address
through `net.ResolveUDPAddr` (passed in as `resolveAddr`, since it is a
standard-library call); any resolution failure aborts construction with an
error. -/
def buildRoutes (resolveAddr : DName → Option UDPAddr) :
    List (DName × DName) → Option (List DomainRoute)
  | [] => some []
  | (d, a) :: rest =>
    match resolveAddr a with
    | none => none
    | some u =>
      match buildRoutes resolveAddr rest with
      | none => none
      | some rs => some ({ domain := d, dnsttUDP := u } :: rs)

/-- Constructor `dnsdispatcher.NewDnsDispatcher`: normalize both lists, reject
an empty domain list, an empty address list, and an address count that is
neither 1 nor the domain count; then build the route table. `none` models
returning a non-nil error. -/
def NewDnsDispatcher (resolveAddr : DName → Option UDPAddr)
    (domains dnsttAddrs : List DName) : Option (List DomainRoute) :=
  let nd := normalizeDomains domains
  if nd = [] then none
  else
    let na := normalizeAddrs dnsttAddrs
    if na = [] then none
    else if na.length ≠ 1 ∧ na.length ≠ nd.length then none
    else buildRoutes resolveAddr (pairAddrs nd na)

/-- Model of `net.ResolveUDPAddr("udp", a)` used only to exhibit concrete
behaviour: the address must be of the form `host:port` (split at the last
colon) with a numeric in-range port; an address with no colon fails with a
missing-port error, exactly as in the Go standard library. -/
def resolveModel (a : DName) : Option UDPAddr :=
  if (a.reverse.dropWhile (fun c => c ≠ ':')) = [] then none
  else
    let p := (a.reverse.takeWhile (fun c => c ≠ ':')).reverse
    let h := ((a.reverse.dropWhile (fun c => c ≠ ':')).drop 1).reverse
    if p ≠ [] ∧ p.all Char.isDigit then
      let n := p.foldl (fun acc c => acc * 10 + (c.toNat - 48)) 0
      if n < 65536 then some { host := h, port := n } else none
    else none

/-- Outcome of the 300 ms first-byte sniff in `mixedserver.Server.handleConnection`:
a first byte arrived, the read deadline expired with no byte, or the read
failed with a non-timeout error. -/
inductive SniffOutcome
  | firstByte (b : Nat)
  | timeout
  | readError
deriving DecidableEq, Repr

/-- Internal backend chosen by the multiplexer. -/
inductive Backend
  | ssh
  | socks
deriving DecidableEq, Repr

/-- Routing decision of `mixedserver.Server.handleConnection`: a non-timeout
read error drops the connection (`none`); otherwise the target defaults to the
SSH backend and switches to SOCKS5 exactly when a first byte arrived and
equals `0x05`; the sniffed byte (when present) is replayed to the backend
before piping — the second component lists the replayed bytes. -/
def handleConnection (o : SniffOutcome) : Option (Backend × List Nat) :=
  match o with
  | .readError => none
  | .timeout => some (.ssh, [])
  | .firstByte b => if b = 0x05 then some (.socks, [b]) else some (.ssh, [b])

/-- Active predicate exactly as the specification claim words it, kept for
comparison with the implemented `Client.IsActive`: enabled, and
`now < expires_at` when an expiry is present, and quota remaining. -/
def specActiveClaim (c : Client) (now : Nat) : Bool :=
  c.enabled &&
    (match c.expiresAt with
     | none => true
     | some t => decide (now < t)) &&
    (decide (c.trafficLimit = 0) || decide (c.trafficUsed < c.trafficLimit))

/-- Active predicate with the boundary the code actually implements:
`now ≤ expires_at`, so an account expiring exactly now is still active. -/
def specActiveAmended (c : Client) (now : Nat) : Bool :=
  c.enabled &&
    (match c.expiresAt with
     | none => true
     | some t => decide (now ≤ t)) &&
    (decide (c.trafficLimit = 0) || decide (c.trafficUsed < c.trafficLimit))

/-- Sample account used to instantiate theorems at concrete inputs. -/
def aliceC : Client :=
  { username := "alice", password := "secret", trafficLimit := 0, trafficUsed := 0,
    expiresAt := none, enabled := true, lastConnection := 0 }

/-- Sample account with empty stored password. -/
def emptyPwC : Client :=
  { username := "carol", password := "", trafficLimit := 0, trafficUsed := 0,
    expiresAt := none, enabled := true, lastConnection := 0 }

/-- Sample account that is enabled and unlimited but expires exactly at
instant 10. -/
def boundaryClient : Client :=
  { username := "bob", password := "pw", trafficLimit := 0, trafficUsed := 0,
    expiresAt := some 10, enabled := true, lastConnection := 0 }

/-- C1: for a record `r` located by its username, authentication as
`(r.username, p)` through the SSH password handler or the SOCKS5
username/password subnegotiation succeeds iff `p` equals the stored password
and the account is Active, and on success the saved record carries
`last_connection = now`. -/
theorem c1_auth_soundness (store : List Client) (r : Client) (p : String) (now : Nat)
    (hfind : findByUsername store r.username = some r) (hu : r.username ≠ "") :
    ((passwordHandler store r.username p now).isSome = true ↔
      p = r.password ∧ r.IsActive now = true) ∧
    (((subnegotiate store 1 r.username p now).2).isSome = true ↔
      p = r.password ∧ r.IsActive now = true) ∧
    (∀ c, passwordHandler store r.username p now = some c → c.lastConnection = now) ∧
    (∀ c, (subnegotiate store 1 r.username p now).2 = some c → c.lastConnection = now) := by
  simp only [passwordHandler, subnegotiate, hfind, hu, if_neg, ne_eq,
    not_true_eq_false, if_false]
  by_cases hp : r.password = p
  · by_cases ha : r.IsActive now = true
    · simp [hp, ha]
    · simp [hp, ha]
  · have hp' : ¬ p = r.password := fun h => hp h.symm
    simp [hp, hp']

/-- C1 witness: concrete success for the sample account. -/
theorem c1_auth_soundness_witness :
    (passwordHandler [aliceC] aliceC.username "secret" 5).isSome = true :=
  ((c1_auth_soundness [aliceC] aliceC "secret" 5 (by decide) (by decide)).1).mpr
    (by decide)

/-- C5 counterexample: at `now` equal to `expires_at` the implementation
(`time.Now().After(ExpiresAt)` is strict) still reports the account active,
while the claim requires `now < expires_at` and calls such an account
inactive. -/
theorem c5_counterexample :
    boundaryClient.IsActive 10 = true ∧ specActiveClaim boundaryClient 10 = false := by
  decide

/-- C5 amended: the Active predicate gating authentication holds iff enabled,
and (expires_at absent or `now ≤ expires_at`), and (`traffic_limit = 0` or
`traffic_used < traffic_limit`); `traffic_limit = 0` means unlimited, and an
account whose expiry equals the current instant is still Active. -/
theorem c5_active_predicate (c : Client) (now : Nat) :
    c.IsActive now = specActiveAmended c now := by
  have h2 : c.HasTrafficRemaining =
      (decide (c.trafficLimit = 0) || decide (c.trafficUsed < c.trafficLimit)) := by
    unfold Client.HasTrafficRemaining
    by_cases h : c.trafficLimit = 0 <;> simp [h]
  have h1 : (!(c.IsExpired now)) =
      (match c.expiresAt with
       | none => true
       | some t => decide (now ≤ t)) := by
    unfold Client.IsExpired
    cases c.expiresAt with
    | none => rfl
    | some t =>
      by_cases ht : t < now
      · simp [ht, Nat.not_le.mpr ht]
      · simp [ht, Nat.le_of_not_lt ht]
  unfold Client.IsActive specActiveAmended
  rw [h1, h2]

/-- C9: any two failing runs of the SOCKS5 auth subnegotiation — wrong
subnegotiation version, empty username, unknown username, wrong password, or
inactive account — write identical reply bytes `0x01 0x01` to the client, so
the wire observation does not reveal which cause occurred. -/
theorem c9_uniform_auth_failure (store : List Client) (now : Nat) (v₁ v₂ : Nat)
    (u₁ p₁ u₂ p₂ : String)
    (h₁ : (subnegotiate store v₁ u₁ p₁ now).2 = none)
    (h₂ : (subnegotiate store v₂ u₂ p₂ now).2 = none) :
    (subnegotiate store v₁ u₁ p₁ now).1 = [1, 1] ∧
    (subnegotiate store v₁ u₁ p₁ now).1 = (subnegotiate store v₂ u₂ p₂ now).1 := by
  have key : ∀ (v : Nat) (u p : String), (subnegotiate store v u p now).2 = none →
      (subnegotiate store v u p now).1 = [1, 1] := by
    intro v u p h
    by_cases hv : v ≠ 1
    · simp [subnegotiate, hv]
    · by_cases hu : u = ""
      · simp [subnegotiate, hv, hu]
      · cases hfind : findByUsername store u with
        | none => simp [subnegotiate, hv, hu, hfind]
        | some c =>
          by_cases hp : c.password = p
          · by_cases ha : c.IsActive now = true
            · exfalso
              simp [subnegotiate, hv, hu, hfind, hp, ha] at h
            · simp [subnegotiate, hv, hu, hfind, hp, ha]
          · simp [subnegotiate, hv, hu, hfind, hp]
  exact ⟨key v₁ u₁ p₁ h₁, (key v₁ u₁ p₁ h₁).trans (key v₂ u₂ p₂ h₂).symm⟩

/-- C9 witness: a wrong-version run and a wrong-password run produce the same
reply bytes. -/
theorem c9_uniform_auth_failure_witness :
    (subnegotiate [aliceC] 2 "alice" "secret" 5).1 = [1, 1] ∧
    (subnegotiate [aliceC] 2 "alice" "secret" 5).1 =
      (subnegotiate [aliceC] 1 "alice" "wrong" 5).1 :=
  c9_uniform_auth_failure [aliceC] 5 2 1 "alice" "secret" "alice" "wrong"
    (by decide) (by decide)

/-- C10: a zero-length password field is parsed as the empty string and is not
a protocol error — authentication then succeeds exactly when the located
account stores the empty password and is Active; a zero-length username, in
contrast, is always rejected. -/
theorem c10_empty_password (store : List Client) (u : String) (now : Nat) (c : Client)
    (hu : u ≠ "") (hfind : findByUsername store u = some c) :
    ((subnegotiate store 1 u "" now).2.isSome = true ↔
      c.password = "" ∧ c.IsActive now = true) ∧
    (∀ p : String, subnegotiate store 1 "" p now = ([1, 1], none)) := by
  constructor
  · simp only [subnegotiate, hfind, hu, ne_eq, not_true_eq_false, if_false]
    by_cases hp : c.password = ""
    · by_cases ha : c.IsActive now = true <;> simp [hp, ha]
    · simp [hp]
  · intro p
    simp [subnegotiate]

/-- C10 witness: the sample empty-password account authenticates with an
empty password field. -/
theorem c10_empty_password_witness :
    (subnegotiate [emptyPwC] 1 "carol" "" 5).2.isSome = true :=
  ((c10_empty_password [emptyPwC] "carol" 5 emptyPwC (by decide) (by decide)).1).mpr
    (by decide)

/-- Unfolding equation for the meter write. -/
theorem QuotaWriter.write_eq (q : QuotaWriter) (n : Nat) :
    q.write n =
      if 0 < n then
        (n, decide (0 < q.limit) && decide (q.limit ≤ q.used + (n : Int) + q.baseUsed),
         { q with used := q.used + (n : Int) })
      else (n, false, q) := rfl

/-- Unfolding equation for the pump run on a cons cell. -/
theorem pumpRun_cons (q : QuotaWriter) (n : Nat) (rest : List Nat) :
    pumpRun q (n :: rest) =
      if (q.write n).2.1 then (q.write n).2.2 else pumpRun (q.write n).2.2 rest := rfl

/-- Unfolding equation for the SSH read-side meter step. -/
theorem trafficReaderRead_eq (limit base : Int) (s : SessionCounters) (n : Nat) :
    trafficReaderRead limit base s n =
      if 0 < n then
        (n, decide (0 < limit) &&
              decide (limit ≤ base + (s.bytesRead + (n : Int)) + s.bytesWritten),
         { s with bytesRead := s.bytesRead + (n : Int) })
      else (n, false, s) := rfl

/-- Unfolding equation for the SSH write-side meter step. -/
theorem trafficWriterWrite_eq (limit base : Int) (s : SessionCounters) (n : Nat) :
    trafficWriterWrite limit base s n =
      if 0 < n then
        (n, decide (0 < limit) &&
              decide (limit ≤ base + s.bytesRead + (s.bytesWritten + (n : Int))),
         { s with bytesWritten := s.bytesWritten + (n : Int) })
      else (n, false, s) := rfl

/-- Unfolding equation for the SSH pump run on a cons cell. -/
theorem sshPumpRun_cons (limit base : Int) (s : SessionCounters) (dir : Bool)
    (n : Nat) (rest : List (Bool × Nat)) :
    sshPumpRun limit base s ((dir, n) :: rest) =
      (if (if dir then trafficReaderRead limit base s n
           else trafficWriterWrite limit base s n).2.1
       then (if dir then trafficReaderRead limit base s n
             else trafficWriterWrite limit base s n).2.2
       else sshPumpRun limit base
         (if dir then trafficReaderRead limit base s n
          else trafficWriterWrite limit base s n).2.2 rest) := rfl

/-- Bound invariant for the SOCKS quota run: started below the limit, the
counter ends at most one chunk above `limit - base`. -/
theorem pumpRun_bound (limit base : Int) (C : Nat) (chunks : List Nat) :
    ∀ used : Int, 0 < limit → base + used < limit → (∀ n ∈ chunks, n ≤ C) →
      (pumpRun { used := used, baseUsed := base, limit := limit } chunks).used ≤
        limit - base + (C : Int) := by
  induction chunks with
  | nil =>
    intro used hl hb _
    simp only [pumpRun]
    omega
  | cons n rest ih =>
    intro used hl hb hc
    have hn : (n : Int) ≤ (C : Int) := by exact_mod_cast hc n (by simp)
    have hrest : ∀ m ∈ rest, m ≤ C := fun m hm => hc m (by simp [hm])
    by_cases h0 : 0 < n
    · by_cases hterm : limit ≤ used + (n : Int) + base
      · simp only [pumpRun_cons, QuotaWriter.write_eq, if_pos h0]
        simp [hl, hterm]
        omega
      · have step :
            pumpRun { used := used, baseUsed := base, limit := limit } (n :: rest) =
              pumpRun { used := used + (n : Int), baseUsed := base, limit := limit }
                rest := by
          simp only [pumpRun_cons, QuotaWriter.write_eq, if_pos h0]
          simp [hterm]
        rw [step]
        exact ih (used + (n : Int)) hl (by omega) hrest
    · have step :
          pumpRun { used := used, baseUsed := base, limit := limit } (n :: rest) =
            pumpRun { used := used, baseUsed := base, limit := limit } rest := by
        simp only [pumpRun_cons, QuotaWriter.write_eq, if_neg h0]
        simp
      rw [step]
      exact ih used hl hb hrest

/-- Bound invariant for the SSH quota run, over the sum of the two shared
counters. -/
theorem sshPumpRun_bound (limit base : Int) (C : Nat) (trace : List (Bool × Nat)) :
    ∀ s : SessionCounters, 0 < limit → base + s.bytesRead + s.bytesWritten < limit →
      (∀ p ∈ trace, p.2 ≤ C) →
      (sshPumpRun limit base s trace).bytesRead +
        (sshPumpRun limit base s trace).bytesWritten ≤ limit - base + (C : Int) := by
  induction trace with
  | nil =>
    intro s hl hb _
    simp only [sshPumpRun]
    omega
  | cons e rest ih =>
    intro s hl hb hc
    obtain ⟨dir, n⟩ := e
    have hn : (n : Int) ≤ (C : Int) := by exact_mod_cast hc (dir, n) (by simp)
    have hrest : ∀ p ∈ rest, p.2 ≤ C := fun p hp => hc p (by simp [hp])
    by_cases h0 : 0 < n
    · cases dir
      · by_cases hterm : limit ≤ base + s.bytesRead + (s.bytesWritten + (n : Int))
        · simp only [sshPumpRun_cons, Bool.false_eq_true, if_false,
            trafficWriterWrite_eq, if_pos h0]
          simp [hl, hterm]
          omega
        · have step :
              sshPumpRun limit base s ((false, n) :: rest) =
                sshPumpRun limit base
                  { s with bytesWritten := s.bytesWritten + (n : Int) } rest := by
            simp only [sshPumpRun_cons, Bool.false_eq_true, if_false,
              trafficWriterWrite_eq, if_pos h0]
            simp [hterm]
          rw [step]
          exact ih _ hl (by simp; omega) hrest
      · by_cases hterm : limit ≤ base + (s.bytesRead + (n : Int)) + s.bytesWritten
        · simp only [sshPumpRun_cons, if_true, trafficReaderRead_eq, if_pos h0]
          simp [hl, hterm]
          omega
        · have step :
              sshPumpRun limit base s ((true, n) :: rest) =
                sshPumpRun limit base
                  { s with bytesRead := s.bytesRead + (n : Int) } rest := by
            simp only [sshPumpRun_cons, if_true, trafficReaderRead_eq, if_pos h0]
            simp [hterm]
          rw [step]
          exact ih _ hl (by simp; omega) hrest
    · cases dir
      · have step :
            sshPumpRun limit base s ((false, n) :: rest) =
              sshPumpRun limit base s rest := by
          simp only [sshPumpRun_cons, Bool.false_eq_true, if_false,
            trafficWriterWrite_eq, if_neg h0]
        rw [step]
        exact ih s hl hb hrest
      · have step :
            sshPumpRun limit base s ((true, n) :: rest) =
              sshPumpRun limit base s rest := by
          simp only [sshPumpRun_cons, if_true, trafficReaderRead_eq, if_neg h0]
          simp
        rw [step]
        exact ih s hl hb hrest

/-- C2: for a session starting with `traffic_limit > 0` and
`traffic_used < traffic_limit`, the bytes the quota-metered copy pumps accept
— both directions interleaved over the one shared counter, up to and
including the chunk on which the meter first returns its terminal signal —
total at most `traffic_limit - traffic_used + C`, where every copy chunk is
at most `C` bytes; this holds for the SOCKS5 `quotaWriter` meter and for the
SSH `trafficReader`/`trafficWriter` meter alike. -/
theorem c2_quota_enforcement (limit base : Int) (C : Nat) (chunks : List Nat)
    (trace : List (Bool × Nat)) (hl : 0 < limit) (hb : base < limit)
    (hc : ∀ n ∈ chunks, n ≤ C) (ht : ∀ p ∈ trace, p.2 ≤ C) :
    (pumpRun { used := 0, baseUsed := base, limit := limit } chunks).used ≤
      limit - base + (C : Int) ∧
    (sshPumpRun limit base { bytesRead := 0, bytesWritten := 0 } trace).bytesRead +
      (sshPumpRun limit base { bytesRead := 0, bytesWritten := 0 } trace).bytesWritten ≤
      limit - base + (C : Int) :=
  ⟨pumpRun_bound limit base C chunks 0 hl (by omega) hc,
   sshPumpRun_bound limit base C trace { bytesRead := 0, bytesWritten := 0 } hl
     (by simpa using hb) ht⟩

/-- C2 witness: a concrete over-quota session. -/
theorem c2_quota_enforcement_witness :
    (pumpRun { used := 0, baseUsed := 1000, limit := 1024 } [512, 512, 512]).used ≤
      1024 - 1000 + (512 : Int) ∧
    (sshPumpRun 1024 1000 { bytesRead := 0, bytesWritten := 0 }
        [(true, 512), (false, 512)]).bytesRead +
      (sshPumpRun 1024 1000 { bytesRead := 0, bytesWritten := 0 }
        [(true, 512), (false, 512)]).bytesWritten ≤ 1024 - 1000 + (512 : Int) :=
  c2_quota_enforcement 1024 1000 512 [512, 512, 512] [(true, 512), (false, 512)]
    (by decide) (by decide) (by decide) (by decide)

/-- C3: a metered transfer of `n > 0` bytes whose underlying write succeeds
adds `n` to the session counter and returns the terminal signal iff
`limit > 0` and the base usage plus the updated session total has reached the
limit; the full `n` bytes are reported transferred either way, and the copy
pump run stops at that signal (the remaining trace is ignored) — for the
SOCKS5 `quotaWriter` and the SSH `trafficWriter` alike. -/
theorem c3_meter_step (q : QuotaWriter) (limit base : Int) (s : SessionCounters)
    (n : Nat) (hn : 0 < n) :
    ((q.write n).1 = n ∧
     (q.write n).2.2.used = q.used + (n : Int) ∧
     ((q.write n).2.1 = true ↔
       0 < q.limit ∧ q.limit ≤ q.baseUsed + (q.used + (n : Int))) ∧
     ∀ rest, (q.write n).2.1 = true → pumpRun q (n :: rest) = (q.write n).2.2) ∧
    ((trafficWriterWrite limit base s n).1 = n ∧
     (trafficWriterWrite limit base s n).2.2.bytesWritten = s.bytesWritten + (n : Int) ∧
     ((trafficWriterWrite limit base s n).2.1 = true ↔
       0 < limit ∧ limit ≤ base + (s.bytesRead + (s.bytesWritten + (n : Int)))) ∧
     ∀ rest, (trafficWriterWrite limit base s n).2.1 = true →
       sshPumpRun limit base s ((false, n) :: rest) =
         (trafficWriterWrite limit base s n).2.2) := by
  constructor
  · refine ⟨?_, ?_, ?_, ?_⟩
    · simp [QuotaWriter.write, hn]
    · simp [QuotaWriter.write, hn]
    · simp only [QuotaWriter.write, if_pos hn, Bool.and_eq_true, decide_eq_true_eq]
      constructor
      · rintro ⟨h1, h2⟩
        exact ⟨h1, by omega⟩
      · rintro ⟨h1, h2⟩
        exact ⟨h1, by omega⟩
    · intro rest hterm
      simp only [pumpRun, hterm, if_true]
  · refine ⟨?_, ?_, ?_, ?_⟩
    · simp [trafficWriterWrite, hn]
    · simp [trafficWriterWrite, hn]
    · simp only [trafficWriterWrite_eq, if_pos hn, Bool.and_eq_true, decide_eq_true_eq]
      constructor <;> (rintro ⟨h1, h2⟩; exact ⟨h1, by omega⟩)
    · intro rest hterm
      simp only [sshPumpRun, Bool.false_eq_true, if_false, hterm, if_true]

/-- C3 witness: a concrete terminal step that still reports all bytes. -/
theorem c3_meter_step_witness :
    ({ used := 0, baseUsed := 1000, limit := 1024 } : QuotaWriter).write 512 =
      (512, true, { used := 512, baseUsed := 1000, limit := 1024 }) ∧
    pumpRun { used := 0, baseUsed := 1000, limit := 1024 } [512, 512] =
      { used := 512, baseUsed := 1000, limit := 1024 } := by
  have h := c3_meter_step { used := 0, baseUsed := 1000, limit := 1024 } 1024 1000
    { bytesRead := 0, bytesWritten := 0 } 512 (by decide)
  refine ⟨by decide, ?_⟩
  have := h.1.2.2.2 [512] (by decide)
  rw [this]
  decide

/-- C4 counterexample: with the account loaded when the store held 50 bytes,
10 new session bytes and a current store value of 100 (changed since the
load), the SSH `flushOne` writes 60 — the in-memory copy plus the delta —
not the store value plus the delta (110) that the claim requires. -/
theorem c4_counterexample :
    (flushOne { clientUsed := 50, bytesRead := 10, bytesWritten := 0 } 100).2 ≠
      100 + 10 := by
  decide

/-- C4 amended: the SOCKS5 end-of-session flush is additive at the store
level (`traffic_used ← traffic_used + d` via a store-side expression), but
the SSH flusher instead adds the delta to its in-memory copy of the account
and overwrites the store with that sum — which equals store-plus-delta only
when the in-memory copy still agrees with the store; both flushers zero the
session counters they drained. -/
theorem c4_flush_semantics (storeUsed d : Int) (t : SessionTracker) :
    (0 < d → socksFlushUsage storeUsed d = storeUsed + d) ∧
    (t.bytesRead + t.bytesWritten ≠ 0 →
      (flushOne t storeUsed).2 = t.clientUsed + (t.bytesRead + t.bytesWritten)) ∧
    (t.bytesRead + t.bytesWritten = 0 → (flushOne t storeUsed).2 = storeUsed) ∧
    (flushOne t storeUsed).1.bytesRead = 0 ∧
    (flushOne t storeUsed).1.bytesWritten = 0 := by
  refine ⟨fun hd => by simp [socksFlushUsage, hd], fun hne => ?_, fun he => ?_, ?_, ?_⟩
  · simp [flushOne, hne]
  · simp [flushOne, he]
  · unfold flushOne
    by_cases h : t.bytesRead + t.bytesWritten = 0 <;> simp [h]
  · unfold flushOne
    by_cases h : t.bytesRead + t.bytesWritten = 0 <;> simp [h]

/-- C4 amended witness: concrete additive SOCKS flush and concrete SSH
overwrite flush. -/
theorem c4_flush_semantics_witness :
    socksFlushUsage 100 10 = 100 + 10 ∧
    (flushOne { clientUsed := 50, bytesRead := 10, bytesWritten := 0 } 100).2 =
      50 + (10 + 0) := by
  have h := c4_flush_semantics 100 10
    { clientUsed := 50, bytesRead := 10, bytesWritten := 0 }
  exact ⟨h.1 (by decide), h.2.1 (by decide)⟩

/-- The route scan returns `none` exactly when no route suffix matches. -/
theorem matchTarget_none_iff (routes : List DomainRoute) (qName : DName) :
    matchTarget routes qName = none ↔ ∀ r ∈ routes, ¬ r.domain <:+ qName := by
  induction routes with
  | nil => simp [matchTarget]
  | cons r rest ih =>
    by_cases hm : r.domain <:+ qName
    · simp [matchTarget, hm]
    · simp [matchTarget, hm, ih]

/-- The route scan returns the backend of the first route, in input order,
whose domain is a suffix of the query name. -/
theorem matchTarget_some_iff (routes : List DomainRoute) (qName : DName) (a : UDPAddr) :
    matchTarget routes qName = some a ↔
      ∃ i, ∃ h : i < routes.length,
        a = (routes.get ⟨i, h⟩).dnsttUDP ∧
        (routes.get ⟨i, h⟩).domain <:+ qName ∧
        ∀ r ∈ routes.take i, ¬ r.domain <:+ qName := by
  induction routes with
  | nil => simp [matchTarget]
  | cons r rest ih =>
    have hcons : matchTarget (r :: rest) qName =
        if List.isSuffixOf r.domain qName = true then some r.dnsttUDP
        else matchTarget rest qName := rfl
    by_cases hm : r.domain <:+ qName
    · rw [hcons, if_pos (List.isSuffixOf_iff_suffix.mpr hm)]
      constructor
      · intro ha
        refine ⟨0, by simp, ?_, by simpa using hm, by simp⟩
        simpa using (Option.some_injective _ ha).symm
      · rintro ⟨i, h, ha, _, hmin⟩
        cases i with
        | zero =>
          simp [ha]
        | succ j =>
          exact absurd hm (hmin r (by simp))
    · have hmb : ¬ (List.isSuffixOf r.domain qName = true) := fun hb =>
        hm (List.isSuffixOf_iff_suffix.mp hb)
      rw [hcons, if_neg hmb, ih]
      constructor
      · rintro ⟨i, h, ha, hsuf, hmin⟩
        refine ⟨i + 1, by simpa using h, by simpa using ha, by simpa using hsuf, ?_⟩
        intro s hs
        rcases (by simpa using hs : s = r ∨ s ∈ rest.take i) with h1 | h1
        · rw [h1]
          exact hm
        · exact hmin s h1
      · rintro ⟨i, h, ha, hsuf, hmin⟩
        cases i with
        | zero =>
          exact absurd (by simpa using hsuf) hm
        | succ j =>
          refine ⟨j, by simpa using h, by simpa using ha, by simpa using hsuf, ?_⟩
          intro s hs
          exact hmin s (by simp [hs])

/-- C6: for every inbound DNS message, an empty question section forwards
nothing; otherwise the handler lowercases the first question name and
forwards to the backend of the first route in input order whose domain is a
byte-suffix of that name; when no route matches, nothing is forwarded and no
reply of any kind is produced. -/
theorem c6_dns_routing (routes : List DomainRoute) (questions : List DName) :
    (questions = [] → handleDnsQuery routes questions = none) ∧
    ∀ q rest, questions = q :: rest →
      ((handleDnsQuery routes questions = none ↔
         ∀ r ∈ routes, ¬ r.domain <:+ toLowerD q) ∧
       ∀ a, handleDnsQuery routes questions = some a ↔
         ∃ i, ∃ h : i < routes.length,
           a = (routes.get ⟨i, h⟩).dnsttUDP ∧
           (routes.get ⟨i, h⟩).domain <:+ toLowerD q ∧
           ∀ r ∈ routes.take i, ¬ r.domain <:+ toLowerD q) := by
  constructor
  · intro h
    simp [h, handleDnsQuery]
  · intro q rest h
    subst h
    exact ⟨matchTarget_none_iff routes (toLowerD q),
           fun a => matchTarget_some_iff routes (toLowerD q) a⟩

/-- Concrete route table for instantiating the DNS theorems. -/
def sampleRoutes : List DomainRoute :=
  [{ domain := "x.other.".toList,
     dnsttUDP := { host := "h1".toList, port := 1 } },
   { domain := "t.example.com.".toList,
     dnsttUDP := { host := "h2".toList, port := 5300 } }]

/-- C6 witness: a mixed-case query matching the second route, and an
unrelated query that is dropped. -/
theorem c6_dns_routing_witness :
    handleDnsQuery sampleRoutes ["A.T.Example.COM.".toList] =
      some { host := "h2".toList, port := 5300 } ∧
    handleDnsQuery sampleRoutes ["unrelated.test.".toList] = none ∧
    handleDnsQuery sampleRoutes [] = none := by
  refine ⟨?_, ?_, ?_⟩
  · exact (((c6_dns_routing sampleRoutes ["A.T.Example.COM.".toList]).2
      ("A.T.Example.COM.".toList) [] rfl).2 _).mpr
      ⟨1, by decide, by decide, by decide, by decide⟩
  · exact (((c6_dns_routing sampleRoutes ["unrelated.test.".toList]).2
      ("unrelated.test.".toList) [] rfl).1).mpr (by decide)
  · exact (c6_dns_routing sampleRoutes []).1 rfl

/-- C7: a connection whose sniffed first byte is `0x05` is routed to the
internal SOCKS5 backend; a sniff timeout with no byte, or any other first
byte, routes to the internal SSH backend; the sniffed byte, when present, is
replayed to the chosen backend before piping. -/
theorem c7_multiplexer (b : Nat) :
    handleConnection (.firstByte 0x05) = some (.socks, [0x05]) ∧
    handleConnection .timeout = some (.ssh, []) ∧
    (b ≠ 0x05 → handleConnection (.firstByte b) = some (.ssh, [b])) := by
  refine ⟨rfl, rfl, fun hb => ?_⟩
  simp [handleConnection, hb]

/-- C7 witness: the identification byte of `SSH-2.0` (`S` = 83) goes to the
SSH backend with the byte replayed. -/
theorem c7_multiplexer_witness :
    handleConnection (.firstByte 83) = some (.ssh, [83]) :=
  (c7_multiplexer 83).2.2 (by decide)

/-- Route building fails exactly when some paired backend address fails to
resolve. -/
theorem buildRoutes_eq_none_iff (resolveAddr : DName → Option UDPAddr)
    (ps : List (DName × DName)) :
    buildRoutes resolveAddr ps = none ↔ ∃ p ∈ ps, resolveAddr p.2 = none := by
  induction ps with
  | nil => simp [buildRoutes]
  | cons p rest ih =>
    obtain ⟨d, a⟩ := p
    cases h : resolveAddr a with
    | none =>
      simp only [buildRoutes, h]
      constructor
      · intro _
        exact ⟨(d, a), by simp, h⟩
      · intro _
        trivial
    | some u =>
      cases hr : buildRoutes resolveAddr rest with
      | none =>
        simp only [buildRoutes, h, hr]
        constructor
        · intro _
          obtain ⟨p, hp, hpn⟩ := ih.mp hr
          exact ⟨p, by simp [hp], hpn⟩
        · intro _
          trivial
      | some rs =>
        simp only [buildRoutes, h, hr]
        constructor
        · intro hcontra
          exact absurd hcontra (by simp)
        · rintro ⟨p, hp, hpn⟩
          rcases (by simpa using hp : p = (d, a) ∨ p ∈ rest) with h1 | h1
          · rw [h1] at hpn
            simp only at hpn
            rw [h] at hpn
            exact absurd hpn (by simp)
          · have hn := ih.mpr ⟨p, h1, hpn⟩
            rw [hr] at hn
            exact absurd hn (by simp)

/-- Successful route building pairs each zone with its resolved backend,
in input order. -/
theorem buildRoutes_eq_some (resolveAddr : DName → Option UDPAddr)
    (ps : List (DName × DName)) :
    ∀ rs : List DomainRoute, buildRoutes resolveAddr ps = some rs →
      rs.length = ps.length ∧
      ∀ i (h1 : i < ps.length) (h2 : i < rs.length),
        (rs.get ⟨i, h2⟩).domain = (ps.get ⟨i, h1⟩).1 ∧
        resolveAddr (ps.get ⟨i, h1⟩).2 = some ((rs.get ⟨i, h2⟩).dnsttUDP) := by
  induction ps with
  | nil =>
    intro rs h
    simp only [buildRoutes, Option.some_inj] at h
    subst h
    exact ⟨rfl, fun i h1 h2 => absurd h1 (by simp)⟩
  | cons p rest ih =>
    obtain ⟨d, a⟩ := p
    intro rs h
    cases hra : resolveAddr a with
    | none => simp [buildRoutes, hra] at h
    | some u =>
      cases hr : buildRoutes resolveAddr rest with
      | none => simp [buildRoutes, hra, hr] at h
      | some rs0 =>
        simp only [buildRoutes, hra, hr, Option.some_inj] at h
        subst h
        obtain ⟨hlen, hpt⟩ := ih rs0 hr
        refine ⟨by simpa using hlen, ?_⟩
        intro i h1 h2
        cases i with
        | zero => exact ⟨rfl, by simpa using hra⟩
        | succ j =>
          have hj1 : j < rest.length := by simpa using h1
          have hj2 : j < rs0.length := by simpa using h2
          simpa using hpt j hj1 hj2

/-- The pairing list has one entry per normalized zone. -/
theorem pairAddrs_length (nd na : List DName) :
    (pairAddrs nd na).length = nd.length := by
  unfold pairAddrs
  by_cases h : na.length = nd.length
  · simp [h]
  · simp [h]

/-- With equal counts the pairing is positional. -/
theorem pairAddrs_get_eq (nd na : List DName) (heq : na.length = nd.length)
    (i : Nat) (h : i < nd.length) (h' : i < (pairAddrs nd na).length) :
    (pairAddrs nd na).get ⟨i, h'⟩ =
      (nd.get ⟨i, h⟩, na.get ⟨i, by omega⟩) := by
  unfold pairAddrs
  simp [heq, List.get_eq_getElem]

/-- With a single backend (count not equal to the zone count), every zone is
paired with the head backend. -/
theorem pairAddrs_get_bcast (nd na : List DName) (hne : na.length ≠ nd.length)
    (i : Nat) (h : i < nd.length) (h' : i < (pairAddrs nd na).length) :
    (pairAddrs nd na).get ⟨i, h'⟩ = (nd.get ⟨i, h⟩, na.headD []) := by
  unfold pairAddrs
  simp [hne, List.get_eq_getElem]

/-- Any valid index into a one-element list reads its head. -/
theorem get_of_length_one (l : List DName) (i : Nat) (hl : l.length = 1) :
    ∀ h : i < l.length, l.get ⟨i, h⟩ = l.headD [] := by
  intro h
  cases l with
  | nil => simp at hl
  | cons x xs =>
    have hi0 : i = 0 := by
      simp only [List.length_cons] at h hl
      omega
    subst hi0
    rfl

/-- Unfolding equation for the dispatcher constructor. -/
theorem NewDnsDispatcher_eq (resolveAddr : DName → Option UDPAddr)
    (domains dnsttAddrs : List DName) :
    NewDnsDispatcher resolveAddr domains dnsttAddrs =
      (if normalizeDomains domains = [] then none
       else if normalizeAddrs dnsttAddrs = [] then none
       else if (normalizeAddrs dnsttAddrs).length ≠ 1 ∧
            (normalizeAddrs dnsttAddrs).length ≠ (normalizeDomains domains).length
       then none
       else buildRoutes resolveAddr
         (pairAddrs (normalizeDomains domains) (normalizeAddrs dnsttAddrs))) := rfl

/-- C8 amended: construction fails exactly when, after normalization, the
domain list is empty, the backend list is empty, the backend count is neither
1 nor the domain count, or some paired backend address fails UDP-address
resolution; on success the zones are exactly the normalized domains in input
order, a single backend is paired with every zone, and equal counts pair
backends 1:1 in input order. -/
theorem c8_dispatcher_construction (resolveAddr : DName → Option UDPAddr)
    (domains dnsttAddrs : List DName) :
    (NewDnsDispatcher resolveAddr domains dnsttAddrs = none ↔
      (normalizeDomains domains = [] ∨
       normalizeAddrs dnsttAddrs = [] ∨
       ((normalizeAddrs dnsttAddrs).length ≠ 1 ∧
        (normalizeAddrs dnsttAddrs).length ≠ (normalizeDomains domains).length) ∨
       ∃ p ∈ pairAddrs (normalizeDomains domains) (normalizeAddrs dnsttAddrs),
         resolveAddr p.2 = none)) ∧
    ∀ routes, NewDnsDispatcher resolveAddr domains dnsttAddrs = some routes →
      routes.map (fun r => r.domain) = normalizeDomains domains ∧
      ((normalizeAddrs dnsttAddrs).length = 1 →
        ∀ r ∈ routes,
          resolveAddr ((normalizeAddrs dnsttAddrs).headD []) = some r.dnsttUDP) ∧
      ((normalizeAddrs dnsttAddrs).length = (normalizeDomains domains).length →
        ∀ i (h1 : i < routes.length)
          (h2 : i < (normalizeAddrs dnsttAddrs).length),
          resolveAddr ((normalizeAddrs dnsttAddrs).get ⟨i, h2⟩) =
            some ((routes.get ⟨i, h1⟩).dnsttUDP)) := by
  set nd := normalizeDomains domains with hnd
  set na := normalizeAddrs dnsttAddrs with hna
  rw [NewDnsDispatcher_eq]
  by_cases e1 : nd = []
  · rw [if_pos e1]
    refine ⟨by simp [e1], ?_⟩
    intro routes hcontra
    exact absurd hcontra (by simp)
  · rw [if_neg e1]
    by_cases e2 : na = []
    · rw [if_pos e2]
      refine ⟨by simp [e2], ?_⟩
      intro routes hcontra
      exact absurd hcontra (by simp)
    · rw [if_neg e2]
      by_cases e3 : na.length ≠ 1 ∧ na.length ≠ nd.length
      · rw [if_pos e3]
        refine ⟨by simp [e3], ?_⟩
        intro routes hcontra
        exact absurd hcontra (by simp)
      · rw [if_neg e3]
        constructor
        · rw [buildRoutes_eq_none_iff]
          constructor
          · intro hx
            exact Or.inr (Or.inr (Or.inr hx))
          · rintro (h | h | h | h)
            · exact absurd h e1
            · exact absurd h e2
            · exact absurd h e3
            · exact h
        · intro routes hroutes
          obtain ⟨hlen, hpt⟩ := buildRoutes_eq_some resolveAddr _ routes hroutes
          have hlen' : routes.length = nd.length := by
            rw [hlen, pairAddrs_length]
          refine ⟨?_, ?_, ?_⟩
          · apply List.ext_get
            · simp [hlen']
            · intro i hi1 hi2
              have hi : i < nd.length := by simpa using hi2
              have hir : i < routes.length := by simpa using hi1
              have hip : i < (pairAddrs nd na).length := by
                rw [pairAddrs_length]
                exact hi
              have := (hpt i hip hir).1
              by_cases heq : na.length = nd.length
              · rw [pairAddrs_get_eq nd na heq i hi hip] at this
                simpa [this] using this
              · rw [pairAddrs_get_bcast nd na heq i hi hip] at this
                simpa [this] using this
          · intro hone r hr
            obtain ⟨⟨i, hir⟩, hget⟩ := List.mem_iff_get.mp hr
            have hi : i < nd.length := by omega
            have hip : i < (pairAddrs nd na).length := by
              rw [pairAddrs_length]
              exact hi
            have hres := (hpt i hip hir).2
            by_cases heq : na.length = nd.length
            · rw [pairAddrs_get_eq nd na heq i hi hip] at hres
              simp only [get_of_length_one na i hone] at hres
              rw [hget] at hres
              exact hres
            · rw [pairAddrs_get_bcast nd na heq i hi hip] at hres
              rw [hget] at hres
              exact hres
          · intro heq i h1 h2
            have hi : i < nd.length := by omega
            have hip : i < (pairAddrs nd na).length := by
              rw [pairAddrs_length]
              exact hi
            have hres := (hpt i hip h1).2
            rw [pairAddrs_get_eq nd na heq i hi hip] at hres
            exact hres

/-- C8 counterexample: with one well-formed domain and one nonempty backend
address that merely lacks a port (so `net.ResolveUDPAddr` fails on it),
construction errors although the domain list, the backend list and the
backend count are all acceptable — refuting the claim that those three
conditions are the only failure causes. -/
theorem c8_counterexample :
    NewDnsDispatcher resolveModel ["a".toList] ["b".toList] = none ∧
    normalizeDomains ["a".toList] ≠ [] ∧
    normalizeAddrs ["b".toList] ≠ [] ∧
    (normalizeAddrs ["b".toList]).length = 1 := by
  decide

/-- Sample route produced by a successful construction. -/
def sampleBuiltRoute : DomainRoute :=
  { domain := "t.example.com.".toList,
    dnsttUDP := { host := "127.0.0.1".toList, port := 5300 } }

/-- C8 witness: a concrete successful construction whose zone list is the
normalized domain list. -/
theorem c8_dispatcher_construction_witness :
    [sampleBuiltRoute].map (fun r => r.domain) =
      normalizeDomains [" T.Example.Com".toList] ∧
    NewDnsDispatcher resolveModel [" T.Example.Com".toList]
      ["127.0.0.1:5300".toList] = some [sampleBuiltRoute] :=
  ⟨((c8_dispatcher_construction resolveModel [" T.Example.Com".toList]
      ["127.0.0.1:5300".toList]).2 [sampleBuiltRoute] (by decide)).1,
   by decide⟩

end Libersuite
